import Mathlib

/-!
Verification development for the menpofit CLM core: the incremental
correlation-filter thin wrapper (`menpofit/clm/expert/base.py`) and the CLM
fitters (`menpofit/clm/fitter.py`), embedded shallowly.

Array contents are modelled with integer entries; every claim settled here is
about shapes, sample counts, error behaviour, state and structural equality,
none of which depends on the numeric field.
-/

namespace Menpofit

/-- Scalar entries of the numeric arrays (the float contents of the numpy
arrays; the claims are shape- and count-level, so integers suffice). -/
abbrev Scalar := Int

/-- The error taxonomy of the specification (`ShapeMismatchError`,
`DimensionMismatchError`, `ConfigurationError`) together with numpy's own
`ValueError`, which is what `np.asarray` raises on the ragged inputs used
below. -/
inductive Err where
  | shapeMismatchError
  | dimensionMismatchError
  | configurationError
  | numpyValueError
deriving Repr, DecidableEq

/-- One training patch: a `(n_channels, patch_h, patch_w)` ndarray, stored as
its shape plus row-major data. -/
structure Patch where
  channels : Nat
  height : Nat
  width : Nat
  data : List Scalar
deriving Repr, DecidableEq

/-- A rectangular batch of patches: an
`(n_images, n_channels, patch_h, patch_w)` ndarray. -/
structure BatchArray where
  n_images : Nat
  channels : Nat
  height : Nat
  width : Nat
  data : List Scalar
deriving Repr, DecidableEq

/-- The desired response: a `(1, response_h, response_w)` ndarray. -/
structure Response where
  height : Nat
  width : Nat
  data : List Scalar
deriving Repr, DecidableEq

/-- A learned correlation filter: a `(n_channels, response_h, response_w)`
ndarray. -/
structure CorrelationFilter where
  channels : Nat
  height : Nat
  width : Nat
  data : List Scalar
deriving Repr, DecidableEq

/-- The sufficient statistics of the spec's data model: auto-correlation
vector, cross-correlation matrix and the number of examples observed. -/
structure SufficientStatistics where
  auto_correlation : List Scalar
  cross_correlation : List (List Scalar)
  sample_count : Nat
deriving Repr, DecidableEq

/-- `N = (patch_h + response_h - 1) * (patch_w + response_w - 1) * n_channels`,
the correlation-statistics dimension for a given patch/response geometry. -/
def statDim (channels patchH patchW respH respW : Nat) : Nat :=
  (patchH + respH - 1) * (patchW + respW - 1) * channels

/-- The statistics dimension determined by a batch and a response. -/
def geomDim (Z : BatchArray) (t : Response) : Nat :=
  statDim Z.channels Z.height Z.width t.height t.width

/-- Whether all patches of a list share the leading patch's
`(n_channels, patch_h, patch_w)` shape (i.e. the list is rectangular). -/
def rectangularList : List Patch → Bool
  | [] => true
  | p :: ps =>
      ps.all (fun q => q.channels == p.channels && q.height == p.height
                        && q.width == p.width)

/-- Stacking a list of same-shaped patches into one
`(n_images, n_channels, patch_h, patch_w)` array. -/
def stackPatches : List Patch → BatchArray
  | [] => ⟨0, 0, 0, 0, []⟩
  | p :: ps =>
      ⟨(p :: ps).length, p.channels, p.height, p.width,
        ((p :: ps).map Patch.data).flatten⟩

/-- `np.asarray` applied to a list of 3-D arrays (external numpy semantics):
a rectangular list is stacked into one 4-D array; a ragged list fails inside
numpy (for the ragged shapes used in this development, whose leading
dimensions agree, numpy raises `ValueError`; for other ragged combinations an
old numpy would instead build an object array — in neither case is the spec's
`ShapeMismatchError` raised, which is the only fact the theorems below use). -/
def np_asarray (l : List Patch) : Except Err BatchArray :=
  if rectangularList l then .ok (stackPatches l) else .error .numpyValueError

/-- The duck-typed `Z` / `X` argument of the wrapper: a Python `list` of
patches or an already-stacked ndarray. -/
inductive BatchInput where
  | fromList (l : List Patch)
  | fromArray (a : BatchArray)
deriving Repr, DecidableEq

/-- Result type of the correlation-filter callables: the learned filter plus
the sufficient statistics. -/
abbrev CFResult := CorrelationFilter × SufficientStatistics

/-- `IncrementalCorrelationFilterThinWrapper` from
`menpofit/clm/expert/base.py`: its only state is the two callables stored by
`__init__` (lines 31-33). -/
structure IncrementalCorrelationFilterThinWrapper where
  cf_callable : BatchArray → Response → Except Err CFResult
  icf_callable : List Scalar → List (List Scalar) → Nat → BatchArray →
      Response → Except Err CFResult

namespace IncrementalCorrelationFilterThinWrapper

/-- `increment` (base.py lines 35-69): turn a list `Z` into an ndarray with
`np.asarray`, then delegate to `icf_callable`. -/
def increment (w : IncrementalCorrelationFilterThinWrapper)
    (A : List Scalar) (B : List (List Scalar)) (n_x : Nat)
    (Z : BatchInput) (t : Response) : Except Err CFResult :=
  match Z with
  | .fromList l => do
      let z ← np_asarray l
      w.icf_callable A B n_x z t
  | .fromArray a => w.icf_callable A B n_x a t

/-- `train` (base.py lines 71-98): turn a list `X` into an ndarray with
`np.asarray`, then delegate to `cf_callable`. -/
def train (w : IncrementalCorrelationFilterThinWrapper)
    (X : BatchInput) (t : Response) : Except Err CFResult :=
  match X with
  | .fromList l => do
      let x ← np_asarray l
      w.cf_callable x t
  | .fromArray a => w.cf_callable a t

end IncrementalCorrelationFilterThinWrapper

/-- A data-dependent placeholder for the correlation content of a batch.
The spec treats the numeric combination rule as owned by the opaque solver
(section 9 leaves it an open question); only its shape and count behaviour
matter to the claims. -/
def batchSum (Z : BatchArray) (t : Response) : Scalar :=
  Z.data.sum + t.data.sum

/-- Modelled from the spec: `mccf` from `menpofit.math.correlationfilter`,
which is not under `src/`. Per the spec's solver contract (sections 4.1 and
6), it returns a filter of shape `(n_channels, response_h, response_w)`, an
auto-correlation vector of length `N` and an `N`-by-`N` cross-correlation
matrix, with statistics consistent with having observed the batch's
`n_images` examples. The numeric entries use the `batchSum` placeholder. -/
def mccf_model (Z : BatchArray) (t : Response) : Except Err CFResult :=
  let n := geomDim Z t
  let s := batchSum Z t
  .ok (⟨Z.channels, t.height, t.width,
          List.replicate (Z.channels * t.height * t.width) s⟩,
       ⟨List.replicate n s, List.replicate n (List.replicate n s),
          Z.n_images⟩)

/-- The dimension check of the spec (section 4.1): the auto-correlation
length and the cross-correlation matrix dimensions must equal `n`. -/
def statsMatch (A : List Scalar) (B : List (List Scalar)) (n : Nat) : Bool :=
  A.length == n && B.length == n && B.all (fun row => row.length == n)

/-- Modelled from the spec: `imccf` from `menpofit.math.correlationfilter`,
which is not under `src/`. Per the spec (section 4.1), it requires
`auto_correlation` length and `cross_correlation` dimensions to equal `N` for
the given patch/response geometry, failing with `DimensionMismatchError`
otherwise, and folds the new batch into the statistics so that the result is
consistent with having observed `n_x + n_images` total examples. The fold is
modelled as a running sum (the spec's section 9 leaves the exact rule open). -/
def imccf_model (A : List Scalar) (B : List (List Scalar)) (n_x : Nat)
    (Z : BatchArray) (t : Response) : Except Err CFResult :=
  let n := geomDim Z t
  let s := batchSum Z t
  if statsMatch A B n then
    .ok (⟨Z.channels, t.height, t.width,
            List.replicate (Z.channels * t.height * t.width) s⟩,
         ⟨A.map (fun a => a + s), B.map (fun row => row.map (fun b => b + s)),
            n_x + Z.n_images⟩)
  else
    .error .dimensionMismatchError

/-- The wrapper with its default callables
(`cf_callable=mccf, icf_callable=imccf`, base.py line 31). -/
def defaultWrapper : IncrementalCorrelationFilterThinWrapper :=
  ⟨mccf_model, imccf_model⟩

/-- Concatenating two batches that share one patch geometry
(`B1 ∪ B2` of the spec's incremental-consistency property). -/
def appendBatch (a b : BatchArray) : BatchArray :=
  ⟨a.n_images + b.n_images, a.channels, a.height, a.width, a.data ++ b.data⟩

/-- Repeated `increment` calls, each building on the statistics returned by
the previous call, as the spec's incremental-consistency property chains
them. -/
def chainIncrements (S : SufficientStatistics) (bs : List BatchArray)
    (t : Response) : Except Err SufficientStatistics :=
  match bs with
  | [] => .ok S
  | b :: rest => do
      let r ← defaultWrapper.increment S.auto_correlation S.cross_correlation
          S.sample_count (.fromArray b) t
      chainIncrements r.2 rest t

/-- One public method call on a wrapper instance. -/
inductive ManagerCall where
  | trainCall (X : BatchInput) (t : Response)
  | incrementCall (A : List Scalar) (B : List (List Scalar)) (n_x : Nat)
      (Z : BatchInput) (t : Response)

/-- Python method-call semantics for the wrapper: a call returns a result and
the instance state after the call. Neither method body (base.py lines 35-98)
contains an attribute assignment, so the state after a call is the state
before it. -/
def methodStep (w : IncrementalCorrelationFilterThinWrapper)
    (c : ManagerCall) :
    IncrementalCorrelationFilterThinWrapper × Except Err CFResult :=
  match c with
  | .trainCall X t => (w, w.train X t)
  | .incrementCall A B n_x Z t => (w, w.increment A B n_x Z t)

/-- The instance state after a sequence of method calls. -/
def runCalls (w : IncrementalCorrelationFilterThinWrapper)
    (cs : List ManagerCall) : IncrementalCorrelationFilterThinWrapper :=
  cs.foldl (fun w c => (methodStep w c).1) w

/-- A concrete ragged patch list: two patches of shapes `(1, 2, 2)` and
`(1, 2, 3)`. Their leading dimensions agree, so `np.asarray` on this list
raises numpy's `ValueError` (broadcast failure). -/
def raggedPatches : List Patch :=
  [⟨1, 2, 2, [0, 0, 0, 0]⟩, ⟨1, 2, 3, [0, 0, 0, 0, 0, 0]⟩]

/-- A shape estimate: a point cloud, stored as a flat coordinate list. -/
abbrev Shape := List Scalar

/-- A statistical shape model (external collaborator, spec section 6): it
exposes the retained per-component variances, the current active-component
count, and an opaque projection-and-reconstruction operator. -/
structure ShapeModel where
  eigenvalues : List ℚ
  n_active_components : Nat
  reconstruct : Shape → Shape

/-- The number of components retained at training time. -/
def ShapeModel.n_components (sm : ShapeModel) : Nat :=
  sm.eigenvalues.length

/-- One entry of an `n_shape` specification: an exact component count or a
variance-fraction threshold. -/
inductive ComponentSpec where
  | exact (k : Nat)
  | frac (f : ℚ)
deriving Repr, DecidableEq

/-- The `n_shape` argument of `GradientDescentCLMFitter.__init__`: `None`, a
single `int`/`float` applied at every scale, or a per-scale list. -/
inductive NShape where
  | useAll
  | single (c : ComponentSpec)
  | perScale (cs : List ComponentSpec)
deriving Repr, DecidableEq

/-- The number of leading components needed for the cumulative variance to
reach `target` (helper for the variance-fraction case). -/
def varianceCount (eigs : List ℚ) (target : ℚ) : Nat :=
  if target ≤ 0 then 0
  else
    match eigs with
    | [] => 0
    | e :: rest => 1 + varianceCount rest (target - e)

/-- Modelled from the spec: setting the active components of one shape model
(the per-model step of `menpofit.checks.set_models_components`, which is not
under `src/`). Per the spec (sections 4.3 and 7): `None` uses all available
components, an `int` sets that exact count — failing with
`ConfigurationError` when it exceeds the retained count — and a `float` sets
a variance-fraction threshold (a fraction outside `[0, 1]` is an invalid
specification, hence `ConfigurationError`). -/
def setModelComponents (sm : ShapeModel) (c : Option ComponentSpec) :
    Except Err ShapeModel :=
  match c with
  | none => .ok { sm with n_active_components := sm.n_components }
  | some (.exact k) =>
      if k ≤ sm.n_components then .ok { sm with n_active_components := k }
      else .error .configurationError
  | some (.frac f) =>
      if 0 ≤ f ∧ f ≤ 1 then
        .ok { sm with
                n_active_components :=
                  varianceCount sm.eigenvalues (f * sm.eigenvalues.sum) }
      else .error .configurationError

/-- Applying one component specification to every model in a list. -/
def setAllComponents : List ShapeModel → Option ComponentSpec →
    Except Err (List ShapeModel)
  | [], _ => .ok []
  | m :: ms, c => do
      let m' ← setModelComponents m c
      let ms' ← setAllComponents ms c
      .ok (m' :: ms')

/-- Applying a per-scale list of specifications, one per model. -/
def setPerScale : List ShapeModel → List ComponentSpec →
    Except Err (List ShapeModel)
  | [], [] => .ok []
  | m :: ms, c :: cs => do
      let m' ← setModelComponents m (some c)
      let ms' ← setPerScale ms cs
      .ok (m' :: ms')
  | _, _ => .error .configurationError

/-- Modelled from the spec: `menpofit.checks.set_models_components`, which is
not under `src/`. An `int` or `float` is applied at every scale, a list gives
one value per scale (a length mismatch is an invalid specification, hence
`ConfigurationError`, spec section 7), and `None` uses all available
components. -/
def set_models_components (models : List ShapeModel) (n_shape : NShape) :
    Except Err (List ShapeModel) :=
  match n_shape with
  | .useAll => setAllComponents models none
  | .single c => setAllComponents models (some c)
  | .perScale cs =>
      if cs.length = models.length then setPerScale models cs
      else .error .configurationError

/-- An expert ensemble for one scale (external collaborator, spec section 6):
its per-landmark detector evaluation and the resulting mean-shift update are
summarized as one opaque step on shapes, together with the algorithm-specific
convergence check. -/
structure ExpertEnsemble where
  step : Shape → Shape
  converged : Shape → Shape → Bool

/-- `RegularisedLandmarkMeanShift` algorithm object: constructed from one
expert ensemble and one shape model for a single scale
(fitter.py lines 113-115). -/
structure RegularisedLandmarkMeanShift where
  expert_ensemble : ExpertEnsemble
  shape_model : ShapeModel

/-- The counted iterations of the alignment algorithm: each iteration applies
the ensemble's update constrained to the shape model and emits the updated
estimate, stopping at the iteration bound or on convergence
(spec section 4.2). -/
def runIters (alg : RegularisedLandmarkMeanShift) (s : Shape) :
    Nat → List Shape
  | 0 => []
  | Nat.succ k =>
      let s' := alg.shape_model.reconstruct (alg.expert_ensemble.step s)
      s' :: (if alg.expert_ensemble.converged s s' then [] else runIters alg s' k)

/-- Modelled from the spec: `RegularisedLandmarkMeanShift.run` from
`menpofit/clm/algorithm.py`, which is not under `src/`. Per the spec
(section 4.2) and the note in `CLMFitter`'s docstring (fitter.py lines
12-17): the initial shape is first reconstructed through the shape model;
this reconstruction is not counted toward `max_iters` and occupies iteration
index 0 of the result. -/
def RegularisedLandmarkMeanShift.run (alg : RegularisedLandmarkMeanShift)
    (initial : Shape) (max_iters : Nat) : List Shape :=
  let s0 := alg.shape_model.reconstruct initial
  s0 :: runIters alg s0 max_iters

/-- The trained CLM model handed to the fitters: scales, reference shape,
holistic features (opaque identifiers) and the per-scale shape models and
expert ensembles. -/
structure CLM where
  scales : List ℚ
  reference_shape : Shape
  holistic_features : List Nat
  shape_models : List ShapeModel
  expert_ensembles : List ExpertEnsemble

/-- The number of scales of a CLM model. -/
def CLM.n_scales (c : CLM) : Nat :=
  c.scales.length

/-- The state of a `GradientDescentCLMFitter` after construction: the stored
model (`self._model`) plus the fields the superclass constructors copy out of
it, and the per-scale algorithm objects. -/
structure GradientDescentCLMFitter where
  _model : CLM
  scales : List ℚ
  reference_shape : Shape
  holistic_features : List Nat
  algorithms : List RegularisedLandmarkMeanShift

/-- The `clm` property of `CLMFitter` (fitter.py lines 33-40): it returns the
stored `self._model`. -/
def GradientDescentCLMFitter.clm (f : GradientDescentCLMFitter) : CLM :=
  f._model

/-- Placeholder shape model for out-of-range list access. -/
def dummyShapeModel : ShapeModel :=
  ⟨[], 0, id⟩

/-- Placeholder expert ensemble for out-of-range list access. -/
def dummyEnsemble : ExpertEnsemble :=
  ⟨id, fun _ _ => false⟩

/-- Placeholder algorithm object for out-of-range list access. -/
def dummyAlgorithm : RegularisedLandmarkMeanShift :=
  ⟨dummyEnsemble, dummyShapeModel⟩

/-- `GradientDescentCLMFitter.__init__` (fitter.py lines 104-119) followed by
`CLMFitter.__init__` (lines 26-31): store the model, apply
`checks.set_models_components` to `clm.shape_models` — which mutates the
passed model's shape models in place — then build one algorithm object per
scale from that scale's expert ensemble and (now mutated) shape model. The
in-place mutation is rendered as state passing: the fitter's `_model` is the
mutated object `clm'`. -/
def gradientDescentCLMFitterInit (clm : CLM) (n_shape : NShape) :
    Except Err GradientDescentCLMFitter := do
  let sms ← set_models_components clm.shape_models n_shape
  let clm' : CLM := { clm with shape_models := sms }
  let algorithms := (List.range clm'.n_scales).map (fun i =>
      RegularisedLandmarkMeanShift.mk
        (clm'.expert_ensembles.getD i dummyEnsemble)
        (clm'.shape_models.getD i dummyShapeModel))
  .ok { _model := clm', scales := clm'.scales,
        reference_shape := clm'.reference_shape,
        holistic_features := clm'.holistic_features,
        algorithms := algorithms }

/-! ## Helper lemmas -/

theorem exceptBind_ok {ε α β : Type _} (a : α) (f : α → Except ε β) :
    (Bind.bind (Except.ok a) f : Except ε β) = f a := rfl

theorem exceptBind_error {ε α β : Type _} (e : ε) (f : α → Except ε β) :
    (Bind.bind (Except.error e) f : Except ε β) = Except.error e := rfl

theorem statsMatch_eq_true_iff (A : List Scalar) (B : List (List Scalar))
    (n : Nat) :
    statsMatch A B n = true ↔
      (A.length = n ∧ B.length = n ∧ ∀ row ∈ B, row.length = n) := by
  simp [statsMatch, Bool.and_eq_true, beq_iff_eq, List.all_eq_true,
        and_assoc]

theorem increment_ok_of_match (A : List Scalar) (B : List (List Scalar))
    (n_x : Nat) (b : BatchArray) (t : Response)
    (h : statsMatch A B (geomDim b t) = true) :
    defaultWrapper.increment A B n_x (.fromArray b) t
      = .ok (⟨b.channels, t.height, t.width,
               List.replicate (b.channels * t.height * t.width) (batchSum b t)⟩,
             ⟨A.map (fun a => a + batchSum b t),
              B.map (fun row => row.map (fun x => x + batchSum b t)),
              n_x + b.n_images⟩) := by
  simp [IncrementalCorrelationFilterThinWrapper.increment, defaultWrapper,
        imccf_model, h]

theorem increment_error_of_mismatch (A : List Scalar)
    (B : List (List Scalar)) (n_x : Nat) (Z : BatchArray) (t : Response)
    (hb : statsMatch A B (geomDim Z t) = false) :
    defaultWrapper.increment A B n_x (.fromArray Z) t
      = .error .dimensionMismatchError := by
  simp [IncrementalCorrelationFilterThinWrapper.increment, defaultWrapper,
        imccf_model, hb]

theorem statsMatch_map (A : List Scalar) (B : List (List Scalar)) (n : Nat)
    (s : Scalar) (h : statsMatch A B n = true) :
    statsMatch (A.map (fun a => a + s))
      (B.map (fun row => row.map (fun x => x + s))) n = true := by
  rw [statsMatch_eq_true_iff] at h ⊢
  obtain ⟨h1, h2, h3⟩ := h
  refine ⟨by simpa using h1, by simpa using h2, ?_⟩
  intro row hrow
  obtain ⟨r, hr, rfl⟩ := List.mem_map.mp hrow
  simpa using h3 r hr

theorem chainIncrements_ok (t : Response) (n : Nat) :
    ∀ (bs : List BatchArray) (S : SufficientStatistics),
      (∀ b ∈ bs, geomDim b t = n) →
      statsMatch S.auto_correlation S.cross_correlation n = true →
      ∃ S', chainIncrements S bs t = .ok S' ∧
        statsMatch S'.auto_correlation S'.cross_correlation n = true ∧
        S'.sample_count
          = S.sample_count + (bs.map BatchArray.n_images).sum := by
  intro bs
  induction bs with
  | nil =>
      intro S _ hS
      exact ⟨S, rfl, hS, by simp [chainIncrements]⟩
  | cons b rest ih =>
      intro S hg hS
      have hgb : geomDim b t = n := hg b (by simp)
      have hok := increment_ok_of_match S.auto_correlation
        S.cross_correlation S.sample_count b t (by rw [hgb]; exact hS)
      have hS1 : statsMatch
          (S.auto_correlation.map (fun a => a + batchSum b t))
          (S.cross_correlation.map
            (fun row => row.map (fun x => x + batchSum b t))) n = true :=
        statsMatch_map _ _ _ _ hS
      obtain ⟨S', hchain, hmatch, hcount⟩ :=
        ih ⟨S.auto_correlation.map (fun a => a + batchSum b t),
            S.cross_correlation.map
              (fun row => row.map (fun x => x + batchSum b t)),
            S.sample_count + b.n_images⟩
          (fun b' hb' => hg b' (List.mem_cons_of_mem _ hb')) hS1
      refine ⟨S', ?_, hmatch, ?_⟩
      · simpa [chainIncrements, hok] using hchain
      · simp only [hcount]
        simp [Nat.add_assoc]

/-! ## Claim theorems -/

/-- C2: whenever the statistics arguments handed to `increment` do not match
the batch geometry — the auto-correlation length or the cross-correlation
dimensions differ from `N` for the given patches and response — the call
fails with `DimensionMismatchError`. -/
theorem increment_dimension_mismatch
    (A : List Scalar) (B : List (List Scalar)) (n_x : Nat)
    (Z : BatchArray) (t : Response)
    (h : ¬ (A.length = geomDim Z t ∧ B.length = geomDim Z t ∧
            ∀ row ∈ B, row.length = geomDim Z t)) :
    defaultWrapper.increment A B n_x (.fromArray Z) t
      = .error .dimensionMismatchError := by
  have hb : statsMatch A B (geomDim Z t) = false := by
    cases hc : statsMatch A B (geomDim Z t) with
    | false => rfl
    | true => exact absurd ((statsMatch_eq_true_iff _ _ _).mp hc) h
  exact increment_error_of_mismatch A B n_x Z t hb

/-- Witness for C2: a concrete empty statistics pair against a `1 × 1 × 1`
patch geometry with `N = 1` triggers `DimensionMismatchError`. -/
theorem increment_dimension_mismatch_witness :
    ¬ (([] : List Scalar).length = geomDim ⟨1, 1, 1, 1, [0]⟩ ⟨1, 1, [0]⟩ ∧
        ([] : List (List Scalar)).length = geomDim ⟨1, 1, 1, 1, [0]⟩ ⟨1, 1, [0]⟩ ∧
        ∀ row ∈ ([] : List (List Scalar)),
          row.length = geomDim ⟨1, 1, 1, 1, [0]⟩ ⟨1, 1, [0]⟩) ∧
    defaultWrapper.increment [] [] 0 (.fromArray ⟨1, 1, 1, 1, [0]⟩) ⟨1, 1, [0]⟩
      = .error .dimensionMismatchError :=
  ⟨by decide,
   increment_dimension_mismatch [] [] 0 ⟨1, 1, 1, 1, [0]⟩ ⟨1, 1, [0]⟩
     (by decide)⟩

/-- C4: for a fixed solver implementation, `train` and `increment` are pure
functions of their arguments — the result depends only on the stored
callable and the arguments, with no other instance state, no hidden global
state and no randomness, so two calls with identical arguments return
identical results. -/
theorem train_increment_deterministic
    (w1 w2 : IncrementalCorrelationFilterThinWrapper)
    (X : BatchInput) (t : Response) (A : List Scalar)
    (B : List (List Scalar)) (n_x : Nat) (Z : BatchInput) :
    (w1.cf_callable = w2.cf_callable → w1.train X t = w2.train X t) ∧
    (w1.icf_callable = w2.icf_callable →
        w1.increment A B n_x Z t = w2.increment A B n_x Z t) := by
  constructor
  · intro h
    cases X <;> simp [IncrementalCorrelationFilterThinWrapper.train, h]
  · intro h
    cases Z <;> simp [IncrementalCorrelationFilterThinWrapper.increment, h]

/-- Witness for C4 at a concrete input. -/
theorem train_increment_deterministic_witness :
    defaultWrapper.train (.fromArray ⟨1, 1, 1, 1, [2]⟩) ⟨1, 1, [3]⟩
      = defaultWrapper.train (.fromArray ⟨1, 1, 1, 1, [2]⟩) ⟨1, 1, [3]⟩ ∧
    defaultWrapper.increment [0] [[0]] 1 (.fromArray ⟨1, 1, 1, 1, [2]⟩)
        ⟨1, 1, [3]⟩
      = defaultWrapper.increment [0] [[0]] 1 (.fromArray ⟨1, 1, 1, 1, [2]⟩)
        ⟨1, 1, [3]⟩ :=
  ⟨(train_increment_deterministic defaultWrapper defaultWrapper
      (.fromArray ⟨1, 1, 1, 1, [2]⟩) ⟨1, 1, [3]⟩ [0] [[0]] 1
      (.fromArray ⟨1, 1, 1, 1, [2]⟩)).1 rfl,
   (train_increment_deterministic defaultWrapper defaultWrapper
      (.fromArray ⟨1, 1, 1, 1, [2]⟩) ⟨1, 1, [3]⟩ [0] [[0]] 1
      (.fromArray ⟨1, 1, 1, 1, [2]⟩)).2 rfl⟩

/-- C8: the wrapper instance carries no per-landmark state across calls —
after any sequence of prior `train`/`increment` calls the instance is
unchanged, and a `train` call returns exactly what it returns on the fresh
instance: its result depends only on the patches and response arguments. -/
theorem train_independent_of_prior_calls
    (w : IncrementalCorrelationFilterThinWrapper) (cs : List ManagerCall)
    (X : BatchInput) (t : Response) :
    runCalls w cs = w ∧
    (methodStep (runCalls w cs) (.trainCall X t)).2 = w.train X t := by
  have hstep : ∀ (v : IncrementalCorrelationFilterThinWrapper)
      (c : ManagerCall), (methodStep v c).1 = v := by
    intro v c
    cases c <;> rfl
  have hrun : ∀ (l : List ManagerCall)
      (v : IncrementalCorrelationFilterThinWrapper), runCalls v l = v := by
    intro l
    induction l with
    | nil => intro v; rfl
    | cons c rest ih =>
        intro v
        show runCalls ((methodStep v c).1) rest = v
        rw [hstep]
        exact ih v
  exact ⟨hrun cs w, by rw [hrun cs w]; rfl⟩

/-- C9: for a rectangular list of patches, the list form and the stacked
array form are interchangeable: `np.asarray` stacks the list, and `train`
and `increment` return identical results on either input form. -/
theorem train_list_array_interchangeable
    (w : IncrementalCorrelationFilterThinWrapper) (l : List Patch)
    (t : Response) (A : List Scalar) (B : List (List Scalar)) (n_x : Nat)
    (h : rectangularList l = true) :
    np_asarray l = .ok (stackPatches l) ∧
    w.train (.fromList l) t = w.train (.fromArray (stackPatches l)) t ∧
    w.increment A B n_x (.fromList l) t
      = w.increment A B n_x (.fromArray (stackPatches l)) t := by
  have ha : np_asarray l = .ok (stackPatches l) := by
    simp [np_asarray, h]
  exact ⟨ha,
    by simp [IncrementalCorrelationFilterThinWrapper.train, ha,
             exceptBind_ok],
    by simp [IncrementalCorrelationFilterThinWrapper.increment, ha,
             exceptBind_ok]⟩

/-- Witness for C9: a two-patch rectangular list. -/
theorem train_list_array_interchangeable_witness :
    rectangularList [⟨1, 1, 1, [5]⟩, ⟨1, 1, 1, [6]⟩] = true ∧
    defaultWrapper.train (.fromList [⟨1, 1, 1, [5]⟩, ⟨1, 1, 1, [6]⟩])
        ⟨1, 1, [0]⟩
      = defaultWrapper.train
          (.fromArray (stackPatches [⟨1, 1, 1, [5]⟩, ⟨1, 1, 1, [6]⟩]))
          ⟨1, 1, [0]⟩ :=
  ⟨by decide,
   (train_list_array_interchangeable defaultWrapper
      [⟨1, 1, 1, [5]⟩, ⟨1, 1, 1, [6]⟩] ⟨1, 1, [0]⟩ [] [] 0 (by decide)).2.1⟩

/-- C3 counterexample: on a concrete ragged list (shapes `(1,2,2)` and
`(1,2,3)`) neither `train` nor `increment` fails with `ShapeMismatchError`:
the failure is numpy's own, raised inside `np.asarray`. -/
theorem ragged_list_counterexample :
    rectangularList raggedPatches = false ∧
    defaultWrapper.train (.fromList raggedPatches) ⟨1, 1, [0]⟩
      ≠ .error .shapeMismatchError ∧
    defaultWrapper.increment [] [] 0 (.fromList raggedPatches) ⟨1, 1, [0]⟩
      ≠ .error .shapeMismatchError := by
  refine ⟨by decide, ?_, ?_⟩ <;>
    simp [IncrementalCorrelationFilterThinWrapper.train,
          IncrementalCorrelationFilterThinWrapper.increment,
          np_asarray, raggedPatches, rectangularList, exceptBind_error]

/-- C3 (amended): `train` and `increment` normalize a rectangular list into
the single stacked array before invoking the solver; a ragged list makes the
call fail inside numpy's array coercion (numpy's `ValueError`), not with
`ShapeMismatchError`. -/
theorem train_ragged_numpy_error
    (w : IncrementalCorrelationFilterThinWrapper) (l : List Patch)
    (t : Response) (A : List Scalar) (B : List (List Scalar)) (n_x : Nat) :
    (rectangularList l = false →
       w.train (.fromList l) t = .error .numpyValueError ∧
       w.increment A B n_x (.fromList l) t = .error .numpyValueError ∧
       w.train (.fromList l) t ≠ .error .shapeMismatchError) ∧
    (rectangularList l = true →
       w.train (.fromList l) t = w.cf_callable (stackPatches l) t) := by
  constructor
  · intro h
    have ha : np_asarray l = .error .numpyValueError := by
      simp [np_asarray, h]
    refine ⟨?_, ?_, ?_⟩ <;>
      simp [IncrementalCorrelationFilterThinWrapper.train,
            IncrementalCorrelationFilterThinWrapper.increment, ha,
            exceptBind_error]
  · intro h
    simp [IncrementalCorrelationFilterThinWrapper.train, np_asarray, h,
          exceptBind_ok]

/-- Witness for the amended C3: the ragged branch at `raggedPatches` and the
rectangular branch at a singleton list. -/
theorem train_ragged_numpy_error_witness :
    rectangularList raggedPatches = false ∧
    defaultWrapper.train (.fromList raggedPatches) ⟨1, 1, [0]⟩
      = .error .numpyValueError ∧
    rectangularList [⟨1, 1, 1, [4]⟩] = true ∧
    defaultWrapper.train (.fromList [⟨1, 1, 1, [4]⟩]) ⟨1, 1, [9]⟩
      = defaultWrapper.cf_callable (stackPatches [⟨1, 1, 1, [4]⟩])
          ⟨1, 1, [9]⟩ :=
  ⟨by decide,
   ((train_ragged_numpy_error defaultWrapper raggedPatches ⟨1, 1, [0]⟩
       [] [] 0).1 (by decide)).1,
   by decide,
   (train_ragged_numpy_error defaultWrapper [⟨1, 1, 1, [4]⟩] ⟨1, 1, [9]⟩
       [] [] 0).2 (by decide)⟩

/-- C5: `train` and `increment` return results of identical output shape —
a filter of shape `(n_channels, response_h, response_w)`, an
auto-correlation vector of length `N` and an `N × N` cross-correlation
matrix — so the cold-start and warm-update paths can be treated
uniformly. -/
theorem train_increment_output_shape
    (Z : BatchArray) (t : Response) (A : List Scalar)
    (B : List (List Scalar)) (n_x : Nat) (f g : CorrelationFilter)
    (S T : SufficientStatistics)
    (ht : defaultWrapper.train (.fromArray Z) t = .ok (f, S))
    (hi : defaultWrapper.increment A B n_x (.fromArray Z) t = .ok (g, T)) :
    (f.channels = Z.channels ∧ f.height = t.height ∧ f.width = t.width ∧
       f.data.length = Z.channels * t.height * t.width) ∧
    (g.channels = Z.channels ∧ g.height = t.height ∧ g.width = t.width ∧
       g.data.length = Z.channels * t.height * t.width) ∧
    statsMatch S.auto_correlation S.cross_correlation (geomDim Z t)
      = true ∧
    statsMatch T.auto_correlation T.cross_correlation (geomDim Z t)
      = true := by
  have ht' : (f, S)
      = (⟨Z.channels, t.height, t.width,
            List.replicate (Z.channels * t.height * t.width) (batchSum Z t)⟩,
         ⟨List.replicate (geomDim Z t) (batchSum Z t),
          List.replicate (geomDim Z t)
            (List.replicate (geomDim Z t) (batchSum Z t)),
          Z.n_images⟩) := by
    have := ht.symm
    simpa [IncrementalCorrelationFilterThinWrapper.train, defaultWrapper,
           mccf_model] using this
  obtain ⟨hf, hS⟩ := Prod.mk.injEq .. ▸ ht'
  cases hc : statsMatch A B (geomDim Z t) with
  | false =>
      exfalso
      rw [increment_error_of_mismatch A B n_x Z t hc] at hi
      exact Except.noConfusion hi
  | true =>
      have hi' : (g, T)
          = (⟨Z.channels, t.height, t.width,
                List.replicate (Z.channels * t.height * t.width)
                  (batchSum Z t)⟩,
             ⟨A.map (fun a => a + batchSum Z t),
              B.map (fun row => row.map (fun x => x + batchSum Z t)),
              n_x + Z.n_images⟩) := by
        have := (increment_ok_of_match A B n_x Z t hc).symm.trans hi
        simpa using this.symm
      obtain ⟨hg, hT⟩ := Prod.mk.injEq .. ▸ hi'
      obtain ⟨hA, hB, hrows⟩ := (statsMatch_eq_true_iff _ _ _).mp hc
      subst hf hS hg hT
      refine ⟨⟨rfl, rfl, rfl, by simp⟩, ⟨rfl, rfl, rfl, by simp⟩, ?_, ?_⟩
      · rw [statsMatch_eq_true_iff]
        refine ⟨by simp, by simp, ?_⟩
        intro row hrow
        exact (List.eq_of_mem_replicate hrow) ▸ List.length_replicate _ _
      · rw [statsMatch_eq_true_iff]
        refine ⟨by simpa using hA, by simpa using hB, ?_⟩
        intro row hrow
        obtain ⟨r, hr, rfl⟩ := List.mem_map.mp hrow
        simpa using hrows r hr

/-- Witness for C5 at a `1 × 1 × 1` geometry, where `N = 1`. -/
theorem train_increment_output_shape_witness :
    statsMatch [2] [[2]] (geomDim ⟨1, 1, 1, 1, [1]⟩ ⟨1, 1, [1]⟩) = true ∧
    statsMatch [2] [[2]] (geomDim ⟨1, 1, 1, 1, [1]⟩ ⟨1, 1, [1]⟩) = true :=
  ⟨(train_increment_output_shape ⟨1, 1, 1, 1, [1]⟩ ⟨1, 1, [1]⟩ [0] [[0]] 0
      ⟨1, 1, 1, [2]⟩ ⟨1, 1, 1, [2]⟩ ⟨[2], [[2]], 1⟩ ⟨[2], [[2]], 1⟩
      rfl rfl).2.2.1,
   (train_increment_output_shape ⟨1, 1, 1, 1, [1]⟩ ⟨1, 1, [1]⟩ [0] [[0]] 0
      ⟨1, 1, 1, [2]⟩ ⟨1, 1, 1, [2]⟩ ⟨[2], [[2]], 1⟩ ⟨[2], [[2]], 1⟩
      rfl rfl).2.2.2⟩

/-- C1: chaining `increment` over batches adds every batch's size to the
sample count — two chained calls on `B1` then `B2` yield
`n + |B1| + |B2|`, a single call on the concatenated batch `B1 ∪ B2` yields
the same sample count, and a chain of arbitrarily many batches adds the sum
of their sizes. -/
theorem increment_sample_count_additive
    (S : SufficientStatistics) (t : Response) (n : Nat)
    (bs : List BatchArray) (B1 B2 : BatchArray)
    (hbs : ∀ b ∈ bs, geomDim b t = n)
    (hS : statsMatch S.auto_correlation S.cross_correlation n = true)
    (h1 : geomDim B1 t = n) (h2 : geomDim B2 t = n)
    (hgeo : B1.channels = B2.channels ∧ B1.height = B2.height ∧
        B1.width = B2.width) :
    (chainIncrements S bs t).map SufficientStatistics.sample_count
        = .ok (S.sample_count + (bs.map BatchArray.n_images).sum) ∧
    (chainIncrements S [B1, B2] t).map SufficientStatistics.sample_count
        = .ok (S.sample_count + B1.n_images + B2.n_images) ∧
    (chainIncrements S [appendBatch B1 B2] t).map
          SufficientStatistics.sample_count
        = (chainIncrements S [B1, B2] t).map
            SufficientStatistics.sample_count := by
  obtain ⟨Sa, hca, _, hna⟩ := chainIncrements_ok t n bs S hbs hS
  have hpair : ∀ b ∈ [B1, B2], geomDim b t = n := by
    intro b hb
    rcases List.mem_pair.mp hb with rfl | rfl
    · exact h1
    · exact h2
  obtain ⟨Sb, hcb, _, hnb⟩ := chainIncrements_ok t n [B1, B2] S hpair hS
  have happ : ∀ b ∈ [appendBatch B1 B2], geomDim b t = n := by
    intro b hb
    rw [List.mem_singleton.mp hb]
    simpa [appendBatch, geomDim, statDim] using h1
  obtain ⟨Sc, hcc, _, hnc⟩ :=
    chainIncrements_ok t n [appendBatch B1 B2] S happ hS
  refine ⟨?_, ?_, ?_⟩
  · rw [hca]
    simp [Except.map, hna]
  · rw [hcb]
    simp [Except.map, hnb, Nat.add_assoc]
  · rw [hcb, hcc]
    simp [Except.map, hnb, hnc, appendBatch, Nat.add_assoc]

/-- Witness for C1: starting from 5 observed samples, a 2-image batch and a
1-image batch reach 8; the concatenated 3-image batch reaches the same. -/
theorem increment_sample_count_additive_witness :
    (chainIncrements ⟨[0], [[0]], 5⟩
        [⟨2, 1, 1, 1, [1, 2]⟩, ⟨1, 1, 1, 1, [3]⟩] ⟨1, 1, [1]⟩).map
        SufficientStatistics.sample_count = .ok (5 + 2 + 1) ∧
    (chainIncrements ⟨[0], [[0]], 5⟩
        [appendBatch ⟨2, 1, 1, 1, [1, 2]⟩ ⟨1, 1, 1, 1, [3]⟩] ⟨1, 1, [1]⟩).map
        SufficientStatistics.sample_count
      = (chainIncrements ⟨[0], [[0]], 5⟩
          [⟨2, 1, 1, 1, [1, 2]⟩, ⟨1, 1, 1, 1, [3]⟩] ⟨1, 1, [1]⟩).map
          SufficientStatistics.sample_count := by
  have h := increment_sample_count_additive ⟨[0], [[0]], 5⟩ ⟨1, 1, [1]⟩ 1
    [⟨2, 1, 1, 1, [1, 2]⟩, ⟨1, 1, 1, 1, [3]⟩]
    ⟨2, 1, 1, 1, [1, 2]⟩ ⟨1, 1, 1, 1, [3]⟩
    (by decide) (by decide) (by decide) (by decide) (by decide)
  exact ⟨h.2.1, h.2.2⟩

/-- C6: the alignment algorithm first reconstructs the initial shape through
the shape model; the reconstruction occupies iteration index 0, is never
counted toward `max_iters` (the trace holds at most `max_iters + 1` entries
and always at least one), and a run with `max_iters = 0` returns exactly the
one reconstructed shape. -/
theorem reconstruction_not_counted
    (alg : RegularisedLandmarkMeanShift) (initial : Shape) :
    alg.run initial 0 = [alg.shape_model.reconstruct initial] ∧
    ∀ max_iters : Nat,
      (alg.run initial max_iters).head?
          = some (alg.shape_model.reconstruct initial) ∧
      (alg.run initial max_iters).length ≤ max_iters + 1 ∧
      1 ≤ (alg.run initial max_iters).length := by
  have hlen : ∀ (m : Nat) (s : Shape), (runIters alg s m).length ≤ m := by
    intro m
    induction m with
    | zero => intro s; simp [runIters]
    | succ k ih =>
        intro s
        simp only [runIters, List.length_cons]
        split
        · simp
        · exact Nat.succ_le_succ (ih _)
  refine ⟨by simp [RegularisedLandmarkMeanShift.run, runIters], ?_⟩
  intro m
  refine ⟨rfl, ?_, ?_⟩
  · simpa [RegularisedLandmarkMeanShift.run, Nat.succ_le_succ_iff]
      using hlen m (alg.shape_model.reconstruct initial)
  · simp [RegularisedLandmarkMeanShift.run]

/-! ## Helper lemmas for the shape-model configuration -/

theorem varianceCount_le (eigs : List ℚ) :
    ∀ target : ℚ, varianceCount eigs target ≤ eigs.length := by
  induction eigs with
  | nil =>
      intro target
      rw [varianceCount]
      split <;> simp
  | cons e rest ih =>
      intro target
      rw [varianceCount]
      split
      · simp
      · have := ih (target - e)
        simp only [List.length_cons]
        omega

theorem setModelComponents_capacity (m m' : ShapeModel)
    (c : Option ComponentSpec) (h : setModelComponents m c = .ok m') :
    m'.n_active_components ≤ m'.n_components := by
  cases c with
  | none =>
      simp only [setModelComponents, Except.ok.injEq] at h
      subst h
      simp [ShapeModel.n_components]
  | some spec =>
      cases spec with
      | exact k =>
          simp only [setModelComponents] at h
          split at h
          · next hk =>
              simp only [Except.ok.injEq] at h
              subst h
              exact hk
          · exact Except.noConfusion h
      | frac f =>
          simp only [setModelComponents] at h
          split at h
          · simp only [Except.ok.injEq] at h
            subst h
            exact varianceCount_le _ _
          · exact Except.noConfusion h

theorem setAllComponents_map (c : Option ComponentSpec)
    (upd : ShapeModel → ShapeModel) :
    ∀ models : List ShapeModel,
      (∀ m ∈ models, setModelComponents m c = .ok (upd m)) →
      setAllComponents models c = .ok (models.map upd) := by
  intro models
  induction models with
  | nil => intro _; rfl
  | cons m ms ih =>
      intro h
      have hm := h m (by simp)
      have hrec := ih (fun m' hm' => h m' (List.mem_cons_of_mem _ hm'))
      simp [setAllComponents, hm, hrec, exceptBind_ok]

theorem setAllComponents_exact_error (k : Nat) :
    ∀ models : List ShapeModel, (∃ m ∈ models, m.n_components < k) →
      setAllComponents models (some (.exact k))
        = .error .configurationError := by
  intro models
  induction models with
  | nil =>
      rintro ⟨m, hm, _⟩
      simp at hm
  | cons m ms ih =>
      rintro ⟨m0, hm0, hk⟩
      by_cases hm : m.n_components < k
      · simp [setAllComponents, setModelComponents, Nat.not_le.mpr hm,
              exceptBind_error]
      · have hmem : m0 ∈ ms := by
          rcases List.mem_cons.mp hm0 with rfl | hmem
          · exact absurd hk hm
          · exact hmem
        have hrec := ih ⟨m0, hmem, hk⟩
        have hhead : setModelComponents m (some (.exact k))
            = .ok { m with n_active_components := k } := by
          simp [setModelComponents, Nat.not_lt.mp hm]
        simp [setAllComponents, hhead, hrec, exceptBind_ok,
              exceptBind_error]

theorem setAllComponents_ok_parts (c : Option ComponentSpec) :
    ∀ (models ms' : List ShapeModel),
      setAllComponents models c = .ok ms' →
      ms'.length = models.length ∧
      ∀ sm' ∈ ms', sm'.n_active_components ≤ sm'.n_components := by
  intro models
  induction models with
  | nil =>
      intro ms' h
      simp only [setAllComponents, Except.ok.injEq] at h
      subst h
      simp
  | cons m ms ih =>
      intro ms' h
      cases h1 : setModelComponents m c with
      | error e => simp [setAllComponents, h1, exceptBind_error] at h
      | ok m' =>
          cases h2 : setAllComponents ms c with
          | error e =>
              simp [setAllComponents, h1, h2, exceptBind_ok,
                    exceptBind_error] at h
          | ok ms0 =>
              simp only [setAllComponents, h1, h2, exceptBind_ok,
                         Except.ok.injEq] at h
              subst h
              obtain ⟨hlen, hcap⟩ := ih ms0 h2
              refine ⟨by simp [hlen], ?_⟩
              intro sm' hsm'
              rcases List.mem_cons.mp hsm' with rfl | hmem
              · exact setModelComponents_capacity m sm' c h1
              · exact hcap sm' hmem

theorem setPerScale_ok_parts :
    ∀ (models : List ShapeModel) (cs : List ComponentSpec)
      (ms' : List ShapeModel),
      setPerScale models cs = .ok ms' →
      ms'.length = models.length ∧
      (∀ sm' ∈ ms', sm'.n_active_components ≤ sm'.n_components) ∧
      ∀ i, i < models.length →
        setModelComponents (models.getD i dummyShapeModel)
            (some (cs.getD i (.exact 0)))
          = .ok (ms'.getD i dummyShapeModel) := by
  intro models
  induction models with
  | nil =>
      intro cs ms' h
      cases cs with
      | nil =>
          simp only [setPerScale, Except.ok.injEq] at h
          subst h
          simp
      | cons c cs' => exact Except.noConfusion h
  | cons m ms ih =>
      intro cs ms' h
      cases cs with
      | nil => exact Except.noConfusion h
      | cons c cs' =>
          cases h1 : setModelComponents m (some c) with
          | error e => simp [setPerScale, h1, exceptBind_error] at h
          | ok m' =>
              cases h2 : setPerScale ms cs' with
              | error e =>
                  simp [setPerScale, h1, h2, exceptBind_ok,
                        exceptBind_error] at h
              | ok ms0 =>
                  simp only [setPerScale, h1, h2, exceptBind_ok,
                             Except.ok.injEq] at h
                  subst h
                  obtain ⟨hlen, hcap, hpt⟩ := ih cs' ms0 h2
                  refine ⟨by simp [hlen], ?_, ?_⟩
                  · intro sm' hsm'
                    rcases List.mem_cons.mp hsm' with rfl | hmem
                    · exact setModelComponents_capacity m sm' (some c) h1
                    · exact hcap sm' hmem
                  · intro i hi
                    cases i with
                    | zero => simpa [List.getD] using h1
                    | succ j =>
                        simp only [List.getD_cons_succ]
                        exact hpt j (by simpa using hi)

/-- C7: the active-shape-component specification: `None` uses all available
components (the active count equals the available count), an `int` sets that
exact count, a `float` sets a variance-fraction threshold, a `list` gives
one value per scale, a value greater than the retained count fails with
`ConfigurationError`, and on success the active count never exceeds the
retained capacity. -/
theorem active_components_spec (models : List ShapeModel) (k : Nat) (f : ℚ)
    (cs : List ComponentSpec) :
    (set_models_components models .useAll).map
        (fun ms => ms.map ShapeModel.n_active_components)
      = .ok (models.map ShapeModel.n_components) ∧
    ((∀ sm ∈ models, k ≤ sm.n_components) →
      (set_models_components models (.single (.exact k))).map
          (fun ms => ms.map ShapeModel.n_active_components)
        = .ok (models.map (fun _ => k))) ∧
    ((∃ sm ∈ models, sm.n_components < k) →
      set_models_components models (.single (.exact k))
        = .error .configurationError) ∧
    (0 ≤ f → f ≤ 1 →
      (set_models_components models (.single (.frac f))).map
          (fun ms => ms.map ShapeModel.n_active_components)
        = .ok (models.map (fun sm =>
            varianceCount sm.eigenvalues (f * sm.eigenvalues.sum)))) ∧
    (cs.length ≠ models.length →
      set_models_components models (.perScale cs)
        = .error .configurationError) ∧
    (cs.length = models.length →
      ∀ ms', set_models_components models (.perScale cs) = .ok ms' →
        ∀ i, i < models.length →
          setModelComponents (models.getD i dummyShapeModel)
              (some (cs.getD i (.exact 0)))
            = .ok (ms'.getD i dummyShapeModel)) ∧
    (∀ n_shape ms', set_models_components models n_shape = .ok ms' →
      ms'.length = models.length ∧
      ∀ sm' ∈ ms', sm'.n_active_components ≤ sm'.n_components) := by
  refine ⟨?_, ?_, ?_, ?_, ?_, ?_, ?_⟩
  · rw [set_models_components,
        setAllComponents_map none
          (fun sm => { sm with n_active_components := sm.n_components })
          models (fun m _ => rfl)]
    simp only [Except.map, List.map_map]
    rfl
  · intro hk
    rw [set_models_components,
        setAllComponents_map (some (.exact k))
          (fun sm => { sm with n_active_components := k }) models
          (fun m hm => by simp [setModelComponents, hk m hm])]
    simp only [Except.map, List.map_map]
    rfl
  · intro hbad
    rw [set_models_components]
    exact setAllComponents_exact_error k models hbad
  · intro h0 h1
    rw [set_models_components,
        setAllComponents_map (some (.frac f))
          (fun sm =>
            { sm with
              n_active_components :=
                varianceCount sm.eigenvalues (f * sm.eigenvalues.sum) })
          models (fun m _ => by simp [setModelComponents, h0, h1])]
    simp only [Except.map, List.map_map]
    rfl
  · intro hne
    simp [set_models_components, hne]
  · intro hlen ms' h hi
    simp only [set_models_components, hlen, if_true] at h
    exact (setPerScale_ok_parts models cs ms' h).2.2 hi
  · intro n_shape ms' h
    cases n_shape with
    | useAll =>
        simp only [set_models_components] at h
        exact setAllComponents_ok_parts none models ms' h
    | single c =>
        simp only [set_models_components] at h
        exact setAllComponents_ok_parts (some c) models ms' h
    | perScale cs0 =>
        simp only [set_models_components] at h
        split at h
        · obtain ⟨hl, hc, _⟩ := setPerScale_ok_parts models cs0 ms' h
          exact ⟨hl, hc⟩
        · exact Except.noConfusion h

/-- Witness for C7 on a one-scale model list with two retained components:
`None` yields 2 active, `int 1` yields 1, `int 3` exceeds capacity and fails,
`float 1/2` yields the variance threshold count 1, an empty per-scale list
fails, and the capacity bound holds on the `None` result. -/
theorem active_components_spec_witness :
    (set_models_components [⟨[1, 1], 0, id⟩] .useAll).map
        (fun ms => ms.map ShapeModel.n_active_components) = .ok [2] ∧
    (set_models_components [⟨[1, 1], 0, id⟩] (.single (.exact 1))).map
        (fun ms => ms.map ShapeModel.n_active_components) = .ok [1] ∧
    set_models_components [⟨[1, 1], 0, id⟩] (.single (.exact 3))
      = .error .configurationError ∧
    (set_models_components [⟨[1, 1], 0, id⟩] (.single (.frac (1/2)))).map
        (fun ms => ms.map ShapeModel.n_active_components) = .ok [1] ∧
    set_models_components [⟨[1, 1], 0, id⟩] (.perScale [])
      = .error .configurationError ∧
    setModelComponents
        (([⟨[1, 1], 0, id⟩] : List ShapeModel).getD 0 dummyShapeModel)
        (some (([ComponentSpec.exact 2]).getD 0 (.exact 0)))
      = .ok (([⟨[1, 1], 2, id⟩] : List ShapeModel).getD 0 dummyShapeModel) ∧
    (⟨[1, 1], 2, id⟩ : ShapeModel).n_active_components
      ≤ (⟨[1, 1], 2, id⟩ : ShapeModel).n_components := by
  have h1 := active_components_spec [⟨[1, 1], 0, id⟩] 1 (1/2) []
  have h3 := active_components_spec [⟨[1, 1], 0, id⟩] 3 (1/2)
    [ComponentSpec.exact 2]
  refine ⟨h1.1, h1.2.1 ?_, h3.2.2.1 ?_, ?_, h1.2.2.2.2.1 ?_, ?_, ?_⟩
  · intro sm hsm
    rw [List.mem_singleton.mp hsm]
    decide
  · exact ⟨⟨[1, 1], 0, id⟩, List.mem_singleton_self _, by decide⟩
  · have hx := h1.2.2.2.1 (by norm_num) (by norm_num)
    norm_num [varianceCount] at hx
    exact hx
  · decide
  · exact h3.2.2.2.2.2.1 rfl [⟨[1, 1], 2, id⟩] rfl 0 (by decide)
  · exact (h1.2.2.2.2.2.2 .useAll [⟨[1, 1], 2, id⟩] rfl).2
      ⟨[1, 1], 2, id⟩ (List.mem_singleton_self _)

theorem getD_map_range {α : Type _} (n i : Nat) (g : Nat → α) (d : α)
    (hi : i < n) : ((List.range n).map g).getD i d = g i := by
  rw [List.getD_eq_getElem?_getD, List.getElem?_map]
  simp [List.getElem?_range, hi]

/-- C10: constructing a `GradientDescentCLMFitter` applies the `n_shape`
active-component setting to the passed CLM's shape models in place before
the per-scale algorithm objects are built; exactly one algorithm is built
per scale, from that scale's expert ensemble and the scale's now-mutated
shape model, and the fitter's `clm` property afterwards returns the very
same (now-mutated) model object. -/
theorem gd_clm_fitter_init_spec (clm : CLM) (n_shape : NShape)
    (sms : List ShapeModel)
    (hset : set_models_components clm.shape_models n_shape = .ok sms)
    (hsm : clm.shape_models.length = clm.n_scales)
    (hee : clm.expert_ensembles.length = clm.n_scales) :
    (gradientDescentCLMFitterInit clm n_shape).map
        GradientDescentCLMFitter.clm
      = .ok { clm with shape_models := sms } ∧
    (gradientDescentCLMFitterInit clm n_shape).map
        (fun fr => fr.algorithms.length) = .ok clm.n_scales ∧
    ∀ i, i < clm.n_scales →
      (gradientDescentCLMFitterInit clm n_shape).map
          (fun fr => fr.algorithms.getD i dummyAlgorithm)
        = .ok ⟨clm.expert_ensembles.getD i dummyEnsemble,
               sms.getD i dummyShapeModel⟩ := by
  have hrun : gradientDescentCLMFitterInit clm n_shape
      = .ok { _model := { clm with shape_models := sms },
              scales := clm.scales,
              reference_shape := clm.reference_shape,
              holistic_features := clm.holistic_features,
              algorithms := (List.range clm.n_scales).map (fun i =>
                RegularisedLandmarkMeanShift.mk
                  (clm.expert_ensembles.getD i dummyEnsemble)
                  (sms.getD i dummyShapeModel)) } := by
    simp only [gradientDescentCLMFitterInit, hset, exceptBind_ok]
    rfl
  refine ⟨?_, ?_, ?_⟩
  · rw [hrun]
    rfl
  · rw [hrun]
    simp [Except.map]
  · intro i hi
    rw [hrun]
    simp only [Except.map]
    rw [getD_map_range clm.n_scales i _ dummyAlgorithm hi]

/-- Witness for C10 on a one-scale CLM: the returned fitter's `clm` is the
mutated model and the single algorithm pairs the scale's expert ensemble
with the mutated shape model. -/
theorem gd_clm_fitter_init_spec_witness :
    (gradientDescentCLMFitterInit
        ⟨[1], [], [0], [⟨[1], 0, id⟩], [⟨id, fun _ _ => false⟩]⟩
        .useAll).map GradientDescentCLMFitter.clm
      = .ok ⟨[1], [], [0], [⟨[1], 1, id⟩], [⟨id, fun _ _ => false⟩]⟩ ∧
    (gradientDescentCLMFitterInit
        ⟨[1], [], [0], [⟨[1], 0, id⟩], [⟨id, fun _ _ => false⟩]⟩
        .useAll).map (fun fr => fr.algorithms.length) = .ok 1 ∧
    (gradientDescentCLMFitterInit
        ⟨[1], [], [0], [⟨[1], 0, id⟩], [⟨id, fun _ _ => false⟩]⟩
        .useAll).map (fun fr => fr.algorithms.getD 0 dummyAlgorithm)
      = .ok ⟨⟨id, fun _ _ => false⟩, ⟨[1], 1, id⟩⟩ := by
  have h := gd_clm_fitter_init_spec
    ⟨[1], [], [0], [⟨[1], 0, id⟩], [⟨id, fun _ _ => false⟩]⟩
    .useAll [⟨[1], 1, id⟩] rfl rfl rfl
  exact ⟨h.1, h.2.1, h.2.2 0 (by decide)⟩

end Menpofit
